import Mathlib

/-!
# Verification of the binance-trading-bot repository

A shallow embedding of the bot's core logic in Lean 4, with theorems
settling the frozen claims about the natural-language specification.

Modelling conventions:
* JavaScript numbers are modelled as exact rationals (`ℚ`).  All prices,
  quantities and tick/step sizes appearing in the claims have exact decimal
  representations, for which rational arithmetic agrees with the
  IEEE-754-based JS evaluation after the code's `toFixed`/`parseFloat`
  decimal repair.
* Stateful runners become pure state-transition functions; effects whose
  results come from the exchange (order ids, cancel/place outcomes) are
  passed in as explicit parameters.
* JS truthiness on numbers/options is modelled explicitly where the code
  relies on it (`x || y`, `if (!x)`).
-/

namespace TradingBot

/-! ## src/utils/math.js -/

/-- Number of fractional digits in the textual (decimal) form of `t`,
modelling `(tickSize.toString().split('.')[1] || '').length` for JS numbers
whose `toString` prints in plain decimal notation: the least `k` such that
`t * 10^k` is an integer (searched up to 400 digits, far beyond any double's
decimal expansion of interest). -/
def decPrecision (t : ℚ) : ℕ :=
  (((List.range 400).find? (fun k => (t * 10 ^ k).den == 1)).getD 0)

/-- `parseFloat(x.toFixed(p))`: round `x` to `p` decimal places and read the
decimal string back as a number. -/
def toFixedParse (x : ℚ) (p : ℕ) : ℚ :=
  (round (x * 10 ^ p) : ℤ) / 10 ^ p

/-- `roundToTickSize` from `src/utils/math.js`: floor the value to a multiple
of `tickSize`, then repair floating-point drift via
`parseFloat((...).toFixed(precision))`. -/
def roundToTickSize (value tickSize : ℚ) : ℚ :=
  if tickSize ≤ 0 then value
  else
    let precision := decPrecision tickSize
    let multiplier := value / tickSize
    let roundedMultiplier : ℤ := ⌊multiplier⌋
    let roundedValue : ℚ := roundedMultiplier * tickSize
    toFixedParse roundedValue precision

/-- `roundToStepSize` from `src/utils/math.js`: identical algorithm applied
to quantities and `stepSize`. -/
def roundToStepSize (value stepSize : ℚ) : ℚ :=
  if stepSize ≤ 0 then value
  else
    let precision := decPrecision stepSize
    let multiplier := value / stepSize
    let roundedMultiplier : ℤ := ⌊multiplier⌋
    let roundedValue : ℚ := roundedMultiplier * stepSize
    toFixedParse roundedValue precision

/-! ## src/strategies/grid.js — data model -/

/-- A runner-local order record, as kept in `gridOrders`. -/
structure GOrder where
  price : ℚ
  side : String
  status : String
  orderId : Option ℕ := none
  quantity : Option ℚ := none
deriving DecidableEq

/-- The fields of a user-stream execution report consumed by the runners:
`s` symbol, `X` order status, `S` side, `i` exchange order id, `z`
cumulative filled quantity. -/
structure ExecEvent where
  s : String
  X : String
  S : String
  i : ℕ
  z : ℚ
deriving DecidableEq

/-- An `unmatchedBuys` entry. -/
structure UnmatchedBuy where
  price : ℚ
  quantity : ℚ
deriving DecidableEq

/-- Runner-local grid state together with the bot stats the handler
updates through `bot.updateStats`. -/
structure GridState where
  gridOrders : List GOrder
  unmatchedBuys : List UnmatchedBuy
  completedRounds : ℚ
  realizedPnl : ℚ
deriving DecidableEq

/-- `findIndex` + `splice(idx, 1)`: the first element satisfying `p`
together with the list with that element removed. -/
def spliceFirst {α : Type} (p : α → Bool) : List α → Option (α × List α)
  | [] => none
  | x :: xs =>
    if p x then some (x, xs)
    else (spliceFirst p xs).map (fun r => (r.1, x :: r.2))

/-- Remove the first element satisfying `p`, if any (`findIndex` +
`splice(idx, 1)`, identity when no element matches). -/
def removeFirst {α : Type} (p : α → Bool) (l : List α) : List α :=
  match spliceFirst p l with
  | none => l
  | some r => r.2

/-- The grid lookup predicate
`o.orderId && o.orderId.toString() === orderId` (a JS orderId of `0` is
falsy and never matches). -/
def matchesId (orderId : ℕ) (o : GOrder) : Bool :=
  match o.orderId with
  | some oid => oid != 0 && oid == orderId
  | none => false

/-- Exchange response to `binance.newOrder`, as consumed by `placeOrder` /
`handlePlaceOrderError`: success carrying the assigned exchange id, fatal
key error (-2014 or -2015), insufficient balance (-2010), filter failure
(-1013, followed by one retry whose optional new id is carried), or any
other error. -/
inductive PlaceOutcome
  | ok (orderId : ℕ)
  | fatalKey
  | noBalance
  | filterFail (retryOutcome : Option ℕ)
  | otherError
deriving DecidableEq

/-- The exchange id an outcome assigns to the order, if any. -/
def assignedId : PlaceOutcome → Option ℕ
  | .ok id => some id
  | .filterFail r => r
  | _ => none

/-- `placeOrder` from the grid runner: compute the quantity from the
configured order size (with the step size as a minimum), skip on zero
quantity, then record the exchange's response on the order record as
`handlePlaceOrderError` does. -/
def placeOrder (orderSize stepSize : ℚ) (o : GOrder) (out : PlaceOutcome) : GOrder :=
  let calculatedQuantity := orderSize / o.price
  let quantity := roundToStepSize (max calculatedQuantity stepSize) stepSize
  if quantity ≤ 0 then o
  else
    match out with
    | .ok id => { o with orderId := some id, status := "open", quantity := some quantity }
    | .fatalKey => o
    | .noBalance => { o with status := "ignored_balance" }
    | .filterFail (some id) => { o with orderId := some id, status := "open", quantity := some quantity }
    | .filterFail none => { o with status := "error" }
    | .otherError => { o with status := "error" }

/-- The grid runner's `onExecutionReport` handler.  The exchange's
response to placing the counter order is passed in as `out`. -/
def onExecutionReport (symbol : String) (gridSpread tickSize orderSize stepSize : ℚ)
    (st : GridState) (evt : ExecEvent) (out : PlaceOutcome) : GridState :=
  if evt.s ≠ symbol ∨ (evt.X ≠ "FILLED" ∧ evt.X ≠ "PARTIALLY_FILLED") then st
  else
    match spliceFirst (matchesId evt.i) st.gridOrders with
    | none => st
    | some (filledOrder, rest) =>
      let filledQty := evt.z
      if evt.S = "BUY" then
        let sellPrice := roundToTickSize (filledOrder.price + gridSpread) tickSize
        let counter : GOrder := { price := sellPrice, side := "SELL", status := "pending" }
        { st with
            gridOrders := rest ++ [placeOrder orderSize stepSize counter out],
            unmatchedBuys := st.unmatchedBuys ++ [⟨filledOrder.price, filledQty⟩] }
      else if evt.S = "SELL" then
        let buyPrice := roundToTickSize (filledOrder.price - gridSpread) tickSize
        let counter : GOrder := { price := buyPrice, side := "BUY", status := "pending" }
        { gridOrders := rest ++ [placeOrder orderSize stepSize counter out],
          unmatchedBuys :=
            removeFirst (fun b => decide (|b.price - buyPrice| < tickSize / 2))
              st.unmatchedBuys,
          completedRounds := st.completedRounds + 1,
          realizedPnl := st.realizedPnl + (filledOrder.price - buyPrice) * filledQty }
      else
        { st with gridOrders := rest }

/-! ## src/strategies/dcaBuy.js — data model -/

/-- A `placedBuys` / `filledBuys` entry of the DCA-Buy runner. -/
structure DcaBuy where
  orderId : ℕ
  price : ℚ
  qty : ℚ
deriving DecidableEq

/-- The runner's single take-profit SELL order, when present. -/
structure SellTp where
  orderId : ℕ
  price : ℚ
  qty : ℚ
deriving DecidableEq

/-- DCA-Buy runner state relevant to fill handling. -/
structure DcaState where
  placedBuys : List DcaBuy
  filledBuys : List DcaBuy
  sellTp : Option SellTp
deriving DecidableEq

/-- The record returned by `buyStats()`. -/
structure BuyStats where
  avg : ℚ
  qty : ℚ
  value : ℚ
deriving DecidableEq

/-- `buyStats()`: average, total quantity and total value over
`filledBuys`; `null` when there are no fills yet. -/
def buyStats (filledBuys : List DcaBuy) : Option BuyStats :=
  if filledBuys.length = 0 then none
  else
    let qty := filledBuys.foldl (fun a b => a + b.qty) 0
    let value := filledBuys.foldl (fun a b => a + b.qty * b.price) 0
    some ⟨value / qty, qty, value⟩

/-- Result of the `cancelOrder` call on the stale TP: success, or an error
carrying its Binance error code. -/
inductive CancelOutcome
  | ok
  | errCode (code : ℤ)
deriving DecidableEq

/-- Result of the `newOrder` call placing the TP SELL. -/
inductive TpPlaceOutcome
  | ok (orderId : ℕ)
  | err
deriving DecidableEq

/-- `ensureTakeProfitSellUpToDate()`: ensure a single TP SELL at
`floor_tick(avg + takeProfit)` with quantity `floor_step(totalQty)`,
cancelling a stale TP (price off by more than half a tick or quantity by
more than half a step) and ignoring error -2011 on that cancel.
`takeProfit = 0` models the JS falsiness guard `if (!takeProfit)`. -/
def ensureTakeProfitSellUpToDate (takeProfit tickSize stepSize : ℚ)
    (st : DcaState) (cancelOut : CancelOutcome) (placeOut : TpPlaceOutcome) : DcaState :=
  if takeProfit = 0 then st
  else
    match buyStats st.filledBuys with
    | none => st
    | some stats =>
      let desiredPrice := roundToTickSize (stats.avg + takeProfit) tickSize
      let qtyToSell := roundToStepSize stats.qty stepSize
      if qtyToSell ≤ 0 then st
      else
        let st1 :=
          match st.sellTp with
          | some tp =>
            if |tp.price - desiredPrice| > tickSize / 2 ∨
                |tp.qty - qtyToSell| > stepSize / 2 then
              match cancelOut with
              | .ok => { st with sellTp := none }
              | .errCode code =>
                if code = -2011 then { st with sellTp := none } else st
            else st
          | none => st
        match st1.sellTp with
        | none =>
          match placeOut with
          | .ok id => { st1 with sellTp := some ⟨id, desiredPrice, qtyToSell⟩ }
          | .err => st1
        | some _ => st1

/-- The BUY branch of the DCA-Buy runner's `onExecutionReport`: look up the
fill in `placedBuys`, append it to `filledBuys` idempotently on orderId,
then run `ensureTakeProfitSellUpToDate`. -/
def dcaOnBuyFill (symbol : String) (takeProfit tickSize stepSize : ℚ)
    (st : DcaState) (evt : ExecEvent) (cancelOut : CancelOutcome)
    (placeOut : TpPlaceOutcome) : DcaState :=
  if evt.s ≠ symbol ∨ evt.X ≠ "FILLED" then st
  else if evt.S = "BUY" then
    match st.placedBuys.find? (fun b => b.orderId == evt.i) with
    | none => st
    | some buy =>
      if st.filledBuys.any (fun fb => fb.orderId == buy.orderId) then st
      else
        ensureTakeProfitSellUpToDate takeProfit tickSize stepSize
          { st with filledBuys := st.filledBuys ++ [buy] } cancelOut placeOut
  else st

/-! ## src/core/botManager.js — data model -/

/-- JS truthiness of an optional number (`null` and `0` are falsy). -/
def truthy : Option ℤ → Bool
  | none => false
  | some t => t != 0

/-- Bot stats as persisted and updated by the manager. -/
structure BotStats where
  completedRounds : ℚ
  realizedPnl : ℚ
  lastDurationMs : ℤ
deriving DecidableEq

/-- The manager-level bot state: lifecycle status (`"running"` or
`"stopped"`), the config time fields, the in-memory `runStartTime`
pointer, and the stats. -/
structure Bot where
  status : String
  timeCreated : ℤ
  timeStarted : Option ℤ
  timeStopped : Option ℤ
  runStartTime : Option ℤ
  stats : BotStats
deriving DecidableEq

/-- A persisted bot snapshot (the `state` record written by
`_persistBot` / read back by `loadBotsFromDisk`). -/
structure PersistedBot where
  status : String
  timeCreated : Option ℤ
  timeStarted : Option ℤ
  timeStopped : Option ℤ
  stats : BotStats
deriving DecidableEq

/-- `BotManager._buildBotInstance`: construct the in-memory bot from a
state record, defaulting the status and time fields (`x || fallback`),
and adopting `runStartTime` when the snapshot was running with a start
time and no stop time. -/
def buildBotInstance (timeNow : ℤ) (s : PersistedBot) : Bot :=
  let b : Bot :=
    { status := if s.status = "" then "stopped" else s.status,
      timeCreated := if truthy s.timeCreated then s.timeCreated.getD 0 else timeNow,
      timeStarted := if truthy s.timeStarted then s.timeStarted else none,
      timeStopped := if truthy s.timeStopped then s.timeStopped else none,
      runStartTime := none,
      stats := s.stats }
  if b.status = "running" ∧ truthy b.timeStarted ∧ ¬ truthy b.timeStopped then
    { b with runStartTime := b.timeStarted }
  else b

/-- `bot.start()`: no-op when already running; otherwise mark running, set
`timeStarted = now` only if absent, clear `timeStopped`, and point
`runStartTime` at `timeStarted`. -/
def botStart (now : ℤ) (b : Bot) : Bot :=
  if b.status = "running" then b
  else
    let ts := if truthy b.timeStarted then b.timeStarted else some now
    { b with
        status := "running"
        timeStarted := ts
        timeStopped := none
        runStartTime := ts }

/-- `bot.stop()`: no-op when already stopped; otherwise mark stopped,
record `lastDurationMs` from `runStartTime` when present, clear
`runStartTime`, and set `timeStopped`. -/
def botStop (now : ℤ) (b : Bot) : Bot :=
  if b.status = "stopped" then b
  else
    let b1 :=
      if truthy b.runStartTime then
        { b with
            stats := { b.stats with lastDurationMs := now - b.runStartTime.getD 0 },
            runStartTime := none }
      else b
    { b1 with status := "stopped", timeStopped := some now }

/-- The auto-resume step of `loadBotsFromDisk` for a snapshot persisted as
running: keep the original `timeStarted` (defaulting to now only when
absent), clear `timeStopped`, and continue the duration from
`timeStarted` without calling `bot.start()`. -/
def resumeBot (now : ℤ) (b : Bot) : Bot :=
  let ts := if truthy b.timeStarted then b.timeStarted else some now
  { b with
      status := "running"
      timeStarted := ts
      timeStopped := none
      runStartTime := ts }

/-- `loadBotsFromDisk` on one snapshot: rebuild the instance and resume it
when it was persisted as running. -/
def loadAndResume (now : ℤ) (s : PersistedBot) : Bot :=
  let b := buildBotInstance now s
  if s.status = "running" then resumeBot now b else b

/-- The `currentDurationMs` computed by `listBots()` / `getBotDetails`. -/
def currentDurationMs (now : ℤ) (b : Bot) : ℤ :=
  if b.status = "running" ∧ truthy b.runStartTime then now - b.runStartTime.getD 0
  else if b.stats.lastDurationMs ≠ 0 then b.stats.lastDurationMs
  else 0

/-- `createBot`'s initial state: stopped, null times, zeroed stats. -/
def createBotState (timeNow : ℤ) : PersistedBot :=
  { status := "stopped", timeCreated := some timeNow, timeStarted := none,
    timeStopped := none,
    stats := { completedRounds := 0, realizedPnl := 0, lastDurationMs := 0 } }

/-- `createBot`: persist the initial state and build the instance from it. -/
def createBot (timeNow : ℤ) : Bot :=
  buildBotInstance timeNow (createBotState timeNow)

/-- Bot states reachable through `createBot`, `bot.start` and `bot.stop`. -/
inductive ReachableBot : Bot → Prop
  | create (timeNow : ℤ) : ReachableBot (createBot timeNow)
  | start (now : ℤ) {b : Bot} : ReachableBot b → ReachableBot (botStart now b)
  | stop (now : ℤ) {b : Bot} : ReachableBot b → ReachableBot (botStop now b)

/-! ## src/services/persistence.js — data model -/

/-- JSON values.  Node's `JSON.stringify`/`JSON.parse` round-trip these
losslessly, so a saved file is modelled by the JSON value written to it. -/
inductive Json
  | null
  | bool (b : Bool)
  | num (q : ℚ)
  | str (s : String)
  | arr (xs : List Json)
  | obj (fields : List (String × Json))

/-- JS truthiness of a JSON value (for `parsed.state || null`). -/
def jsTruthy : Json → Bool
  | .null => false
  | .bool b => b
  | .num q => q != 0
  | .str s => s != ""
  | .arr _ => true
  | .obj _ => true

/-- Property read `obj.key` (missing keys are undefined, which the `||`
fallback treats like null). -/
def jsonGet (k : String) : Json → Json
  | .obj fields =>
    match fields.find? (fun f => f.1 == k) with
    | some f => f.2
    | none => .null
  | _ => .null

/-- `v || null`. -/
def orNull (v : Json) : Json := if jsTruthy v then v else .null

/-- The bots data directory: one JSON file per bot id. -/
abbrev Store := List (String × Json)

/-- `fs.writeFileSync` on the bot's file (overwrite). -/
def setStore (store : Store) (k : String) (v : Json) : Store :=
  (k, v) :: store.filter (fun e => e.1 != k)

/-- `fs.existsSync` + `fs.readFileSync` on the bot's file. -/
def getStore (store : Store) (k : String) : Option Json :=
  (store.find? (fun e => e.1 == k)).map (fun e => e.2)

/-- `saveBotState(botId, state)`: write `{updatedAt, state}` to the bot's
file. -/
def saveBotState (now : ℚ) (store : Store) (botId : String) (state : Json) : Store :=
  setStore store botId (.obj [("updatedAt", .num now), ("state", state)])

/-- `loadBotState(botId)`: `null` when the file is missing, else
`parsed.state || null`. -/
def loadBotState (store : Store) (botId : String) : Json :=
  match getStore store botId with
  | none => .null
  | some parsed => orNull (jsonGet "state" parsed)

/-! ## src/utils/retry.js — data model -/

/-- `retry(fn, {retries})`, with the behaviour of `fn` on its n-th
invocation (0-based) given by `fn : ℕ → Except E A`.  Returns the final
result together with the number of invocations made.  The fuel argument
is `retries - attempt`; at fuel 0 (`attempt === retries`) the result or
error of the final attempt is propagated as-is. -/
def retryAux {E A : Type} (fn : ℕ → Except E A) (attempt : ℕ) : ℕ → Except E A × ℕ
  | 0 => (fn attempt, 1)
  | fuel + 1 =>
    match fn attempt with
    | .ok a => (.ok a, 1)
    | .error _ =>
      let r := retryAux fn (attempt + 1) fuel
      (r.1, r.2 + 1)

/-- The `retry` helper. -/
def retry {E A : Type} (fn : ℕ → Except E A) (retries : ℕ) : Except E A × ℕ :=
  retryAux fn 0 retries

/-- `_signedRequest` wraps its request in `retry(fn, { retries: 3, ... })`. -/
def signedRequestRetries : ℕ := 3

/-! ## server.js BinanceClient — getOpenOrders / getAllOrders -/

/-- A JS field value in the mapped order objects: numbers, strings, and
`Date` objects (distinct from epoch-millisecond numbers). -/
inductive JsVal
  | num (q : ℚ)
  | str (s : String)
  | date (ms : ℚ)
deriving DecidableEq

/-- A raw exchange order as returned by the orders endpoints: prices and
quantities are decimal strings, timestamps are epoch milliseconds
(`updateTime` may be absent). -/
structure RawOrder where
  orderId : ℚ
  clientOrderId : String
  side : String
  price : String
  origQty : String
  executedQty : String
  symbol : String
  status : String
  timeInForce : String
  time : ℚ
  updateTime : Option ℚ
deriving DecidableEq

/-- The per-order mapping performed by both `getOpenOrders` and
`getAllOrders` (`order.updateTime || order.time` models JS truthiness). -/
def mapOrderForUI (o : RawOrder) : List (String × JsVal) :=
  [("order_id", .num o.orderId),
   ("client_order_id", .str o.clientOrderId),
   ("type", .str o.side),
   ("price", .str o.price),
   ("quantity", .str o.origQty),
   ("executed_quantity", .str o.executedQty),
   ("symbol", .str o.symbol),
   ("status", .str o.status),
   ("time_in_force", .str o.timeInForce),
   ("created_at", .date o.time),
   ("updated_at", .date (match o.updateTime with
      | some u => if u = 0 then o.time else u
      | none => o.time))]

/-- `getOpenOrders`: map the signed-request result, or return `[]` on any
error (the catch-all in the source). -/
def getOpenOrders (result : Except String (List RawOrder)) :
    List (List (String × JsVal)) :=
  match result with
  | .ok orders => orders.map mapOrderForUI
  | .error _ => []

/-- `getAllOrders`: the same normalisation and the same catch-all. -/
def getAllOrders (result : Except String (List RawOrder)) :
    List (List (String × JsVal)) :=
  match result with
  | .ok orders => orders.map mapOrderForUI
  | .error _ => []

/-- Whether a mapped object carries a field with the given name. -/
def hasKey (obj : List (String × JsVal)) (k : String) : Bool :=
  obj.any (fun f => f.1 == k)

/-- Modelled from the spec: the runner-local Order record shape the spec
says `getOpenOrders` normalises to — fields named `orderId`,
`clientOrderId`, `side`, `price`, `qty`, `status`. -/
def runnerOrderShape (obj : List (String × JsVal)) : Bool :=
  hasKey obj "orderId" && hasKey obj "clientOrderId" && hasKey obj "side" &&
  hasKey obj "price" && hasKey obj "qty" && hasKey obj "status"

/-! ## src/binance/wsClient.js — data model -/

/-- The stream client's connection state: the `closed` shutdown flag, the
user listen key, the keepalive timer, and the streams with an open market
socket. -/
structure WSState where
  closed : Bool
  userListenKey : Option String
  keepAliveTimer : Bool
  marketStreams : List String
deriving DecidableEq

/-- `closeAll()`: set `closed`, close the user socket, terminate and clear
all market sockets, cancel keepalive, drop the listen key. -/
def closeAll (_st : WSState) : WSState :=
  { closed := true, userListenKey := none, keepAliveTimer := false,
    marketStreams := [] }

/-- `subscribeMarketSymbol`: no-op when the stream is already in
`marketWss`; otherwise open a new WebSocket and record it.  The Boolean
reports whether a new stream connection was opened. -/
def subscribeMarketSymbol (st : WSState) (stream : String) : WSState × Bool :=
  if st.marketStreams.contains stream then (st, false)
  else ({ st with marketStreams := stream :: st.marketStreams }, true)

/-- A market socket's `close` handler: delete the stream from `marketWss`,
then (after `reconnectDelay`) call `subscribeMarketSymbol` again. -/
def marketCloseHandler (st : WSState) (stream : String) : WSState × Bool :=
  let st1 := { st with marketStreams := st.marketStreams.erase stream }
  subscribeMarketSymbol st1 stream

/-- `_recreateUserStream` (scheduled by the user socket's `close`
handler): suppressed when `closed`; otherwise obtain a fresh listen key
and reopen the user stream with its keepalive.  The Boolean reports
whether a new listen key was obtained and a connection opened. -/
def recreateUserStream (st : WSState) (newKey : String) : WSState × Bool :=
  if st.closed then (st, false)
  else ({ st with userListenKey := some newKey, keepAliveTimer := true }, true)

/-- If `t * 10 ^ k` is an integer for some `k < 400`, then so is
`t * 10 ^ decPrecision t`: `decPrecision` returns the first such exponent. -/
lemma den_pow_decPrecision (t : ℚ) (k : ℕ) (hk : k < 400)
    (h : (t * 10 ^ k).den = 1) : (t * 10 ^ decPrecision t).den = 1 := by
  unfold decPrecision
  cases hfind : (List.range 400).find? (fun k => (t * 10 ^ k).den == 1) with
  | none =>
    exfalso
    have := List.find?_eq_none.mp hfind k (List.mem_range.mpr hk)
    simp [h] at this
  | some j =>
    have := List.find?_some hfind
    simpa using this

/-- `parseFloat(x.toFixed(p))` returns `x` exactly whenever `x` needs at most
`p` decimal digits. -/
lemma toFixedParse_of_den_one (x : ℚ) (p : ℕ) (h : (x * 10 ^ p).den = 1) :
    toFixedParse x p = x := by
  have hx : ((x * 10 ^ p).num : ℚ) = x * 10 ^ p := by
    conv_rhs => rw [← Rat.num_div_den (x * 10 ^ p)]
    rw [h]
    simp
  unfold toFixedParse
  rw [← hx, round_intCast, hx]
  have hpow : (10 : ℚ) ^ p ≠ 0 := by positivity
  field_simp

/-- An integer times an integer-valued rational is integer-valued. -/
lemma den_intCast_mul (m : ℤ) (y : ℚ) (h : y.den = 1) : ((m : ℚ) * y).den = 1 := by
  have hy : ((y.num : ℤ) : ℚ) = y := by
    conv_rhs => rw [← Rat.num_div_den y]
    rw [h]
    simp
  rw [← hy, ← Int.cast_mul]
  exact Rat.den_intCast _

/-- For a positive tick size whose decimal expansion terminates (as every JS
tick size does), `roundToTickSize` is exactly flooring to a tick multiple:
the `toFixed`/`parseFloat` step is the identity on the exact value. -/
lemma roundToTickSize_exact (v t : ℚ) (ht : 0 < t) (k : ℕ) (hk : k < 400)
    (h : (t * 10 ^ k).den = 1) :
    roundToTickSize v t = (⌊v / t⌋ : ℚ) * t := by
  unfold roundToTickSize
  rw [if_neg (not_le.mpr ht)]
  apply toFixedParse_of_den_one
  rw [mul_assoc]
  exact den_intCast_mul _ _ (den_pow_decPrecision t k hk h)

/-- Same statement for `roundToStepSize`. -/
lemma roundToStepSize_exact (v s : ℚ) (hs : 0 < s) (k : ℕ) (hk : k < 400)
    (h : (s * 10 ^ k).den = 1) :
    roundToStepSize v s = (⌊v / s⌋ : ℚ) * s := by
  unfold roundToStepSize
  rw [if_neg (not_le.mpr hs)]
  apply toFixedParse_of_den_one
  rw [mul_assoc]
  exact den_intCast_mul _ _ (den_pow_decPrecision s k hk h)

/-- The tick size 0.01 terminates after two decimal digits. -/
lemma den_hundredth : ((1 / 100 : ℚ) * 10 ^ 2).den = 1 := by
  norm_num

/-- The step size 0.0001 terminates after four decimal digits. -/
lemma den_tenthousandth : ((1 / 10000 : ℚ) * 10 ^ 4).den = 1 := by
  norm_num

/-- Evaluation of `roundToTickSize` at tick size 0.01. -/
lemma roundToTick_hundredth (v : ℚ) :
    roundToTickSize v (1 / 100) = (⌊v * 100⌋ : ℚ) / 100 := by
  rw [roundToTickSize_exact v (1 / 100) (by norm_num) 2 (by norm_num) den_hundredth]
  rw [div_div_eq_mul_div, div_one]
  ring

/-- Evaluation of `roundToStepSize` at step size 0.0001. -/
lemma roundToStep_tenthousandth (v : ℚ) :
    roundToStepSize v (1 / 10000) = (⌊v * 10000⌋ : ℚ) / 10000 := by
  rw [roundToStepSize_exact v (1 / 10000) (by norm_num) 4 (by norm_num) den_tenthousandth]
  rw [div_div_eq_mul_div, div_one]
  ring

end TradingBot

/-- C2: `roundToTickSize(v, t)` equals
`parseFloat((floor(v/t)·t).toFixed(p))` with `p` the count of fractional
digits of `t`, returns `v` unchanged for `t ≤ 0`, `roundToStepSize`
satisfies the same definition, and on the spec's concrete inputs
`floor_tick(10.005, 0.01) = 10.00` and
`floor_tick(1.10000000003, 0.01) = 1.10`, free of trailing drift digits. -/
theorem C2_floor_tick_repair :
    (∀ v t : ℚ, TradingBot.roundToTickSize v t =
      if t ≤ 0 then v
      else TradingBot.toFixedParse ((⌊v / t⌋ : ℤ) * t) (TradingBot.decPrecision t)) ∧
    (∀ v s : ℚ, TradingBot.roundToStepSize v s =
      if s ≤ 0 then v
      else TradingBot.toFixedParse ((⌊v / s⌋ : ℤ) * s) (TradingBot.decPrecision s)) ∧
    TradingBot.roundToTickSize (10005 / 1000) (1 / 100) = 10 ∧
    TradingBot.roundToTickSize (110000000003 / 100000000000) (1 / 100) = 11 / 10 := by
  refine ⟨fun v t => rfl, fun v s => rfl, ?_, ?_⟩
  · rw [TradingBot.roundToTick_hundredth]
    norm_num [Int.floor_eq_iff]
  · rw [TradingBot.roundToTick_hundredth]
    norm_num [Int.floor_eq_iff]

namespace TradingBot

/-- `placeOrder` either keeps the order's id or assigns the outcome's id. -/
lemma placeOrder_orderId (orderSize stepSize : ℚ) (o : GOrder) (out : PlaceOutcome) :
    (placeOrder orderSize stepSize o out).orderId = o.orderId ∨
    (placeOrder orderSize stepSize o out).orderId = assignedId out := by
  unfold placeOrder assignedId
  by_cases hq : roundToStepSize (max (orderSize / o.price) stepSize) stepSize ≤ 0
  · rw [if_pos hq]
    exact Or.inl rfl
  · rw [if_neg hq]
    cases out with
    | ok id => exact Or.inr rfl
    | fatalKey => exact Or.inl rfl
    | noBalance => exact Or.inl rfl
    | filterFail r => cases r with
      | none => exact Or.inl rfl
      | some id => exact Or.inr rfl
    | otherError => exact Or.inl rfl

/-- A successful `spliceFirst` found an element satisfying the predicate. -/
lemma spliceFirst_found {α : Type} (p : α → Bool) (l : List α) (x : α) (rest : List α)
    (h : spliceFirst p l = some (x, rest)) : p x = true := by
  induction l generalizing rest with
  | nil => simp [spliceFirst] at h
  | cons a as ih =>
    rw [spliceFirst] at h
    by_cases hp : p a
    · rw [if_pos hp] at h
      cases h
      exact hp
    · rw [if_neg hp] at h
      cases hsp : spliceFirst p as with
      | none => rw [hsp] at h; simp at h
      | some r =>
        rw [hsp] at h
        simp only [Option.map_some'] at h
        injection h with h2
        have h1 : r.1 = x := congrArg Prod.fst h2
        have hsp' : spliceFirst p as = some (x, r.2) := by rw [hsp, ← h1]
        exact ih r.2 hsp'

/-- `dcaOnBuyFill` on a fresh fill appends the found buy and runs the TP
maintenance. -/
lemma dcaOnBuyFill_found (symbol : String) (takeProfit tickSize stepSize : ℚ)
    (st : DcaState) (evt : ExecEvent) (c : CancelOutcome) (p : TpPlaceOutcome)
    (buy : DcaBuy)
    (hs : evt.s = symbol) (hX : evt.X = "FILLED") (hS : evt.S = "BUY")
    (hfind : st.placedBuys.find? (fun b => b.orderId == evt.i) = some buy)
    (hnot : st.filledBuys.any (fun fb => fb.orderId == buy.orderId) = false) :
    dcaOnBuyFill symbol takeProfit tickSize stepSize st evt c p =
      ensureTakeProfitSellUpToDate takeProfit tickSize stepSize
        { st with filledBuys := st.filledBuys ++ [buy] } c p := by
  unfold dcaOnBuyFill
  have hcond : ¬(evt.s ≠ symbol ∨ evt.X ≠ "FILLED") := by
    push_neg
    exact ⟨hs, hX⟩
  rw [if_neg hcond, if_pos hS, hfind]
  simp [hnot]

/-- `dcaOnBuyFill` ignores a BUY fill already recorded in `filledBuys`
(idempotency on orderId). -/
lemma dcaOnBuyFill_already (symbol : String) (takeProfit tickSize stepSize : ℚ)
    (st : DcaState) (evt : ExecEvent) (c : CancelOutcome) (p : TpPlaceOutcome)
    (buy : DcaBuy)
    (hS : evt.S = "BUY")
    (hfind : st.placedBuys.find? (fun b => b.orderId == evt.i) = some buy)
    (hal : st.filledBuys.any (fun fb => fb.orderId == buy.orderId) = true) :
    dcaOnBuyFill symbol takeProfit tickSize stepSize st evt c p = st := by
  unfold dcaOnBuyFill
  by_cases hcond : evt.s ≠ symbol ∨ evt.X ≠ "FILLED"
  · rw [if_pos hcond]
  · rw [if_neg hcond, if_pos hS, hfind]
    simp [hal]

/-- `ensureTakeProfitSellUpToDate` with no previous TP places the desired
one. -/
lemma ensure_place (takeProfit tickSize stepSize : ℚ) (st : DcaState)
    (c : CancelOutcome) (id : ℕ) (stats : BuyStats)
    (htp : takeProfit ≠ 0) (hstats : buyStats st.filledBuys = some stats)
    (hq : 0 < roundToStepSize stats.qty stepSize) (hnone : st.sellTp = none) :
    ensureTakeProfitSellUpToDate takeProfit tickSize stepSize st c
        (TpPlaceOutcome.ok id) =
      { st with sellTp := some ⟨id, roundToTickSize (stats.avg + takeProfit) tickSize,
          roundToStepSize stats.qty stepSize⟩ } := by
  unfold ensureTakeProfitSellUpToDate
  have hq' : ¬(roundToStepSize stats.qty stepSize ≤ 0) := not_le.mpr hq
  rw [if_neg htp, hstats]
  simp [hq', hnone]

/-- `ensureTakeProfitSellUpToDate` keeps a TP within half a tick and half a
step of the desired one, leaving the state unchanged. -/
lemma ensure_keep (takeProfit tickSize stepSize : ℚ) (st : DcaState)
    (c : CancelOutcome) (p : TpPlaceOutcome) (tp : SellTp) (stats : BuyStats)
    (htp : takeProfit ≠ 0) (hstats : buyStats st.filledBuys = some stats)
    (hq : 0 < roundToStepSize stats.qty stepSize) (hsome : st.sellTp = some tp)
    (hin : ¬(|tp.price - roundToTickSize (stats.avg + takeProfit) tickSize| > tickSize / 2 ∨
        |tp.qty - roundToStepSize stats.qty stepSize| > stepSize / 2)) :
    ensureTakeProfitSellUpToDate takeProfit tickSize stepSize st c p = st := by
  unfold ensureTakeProfitSellUpToDate
  have hq' : ¬(roundToStepSize stats.qty stepSize ≤ 0) := not_le.mpr hq
  rw [if_neg htp, hstats]
  simp [hq', hsome, hin]

/-- `ensureTakeProfitSellUpToDate` replaces a stale TP when the cancel
succeeds or fails with -2011 (already gone). -/
lemma ensure_replace (takeProfit tickSize stepSize : ℚ) (st : DcaState)
    (c : CancelOutcome) (id : ℕ) (tp : SellTp) (stats : BuyStats)
    (htp : takeProfit ≠ 0) (hstats : buyStats st.filledBuys = some stats)
    (hq : 0 < roundToStepSize stats.qty stepSize) (hsome : st.sellTp = some tp)
    (hout : |tp.price - roundToTickSize (stats.avg + takeProfit) tickSize| > tickSize / 2 ∨
        |tp.qty - roundToStepSize stats.qty stepSize| > stepSize / 2)
    (hc : c = CancelOutcome.ok ∨ c = CancelOutcome.errCode (-2011)) :
    ensureTakeProfitSellUpToDate takeProfit tickSize stepSize st c
        (TpPlaceOutcome.ok id) =
      { st with sellTp := some ⟨id, roundToTickSize (stats.avg + takeProfit) tickSize,
          roundToStepSize stats.qty stepSize⟩ } := by
  unfold ensureTakeProfitSellUpToDate
  have hq' : ¬(roundToStepSize stats.qty stepSize ≤ 0) := not_le.mpr hq
  rw [if_neg htp, hstats]
  rcases hc with hc | hc <;> rw [hc] <;> simp [hq', hsome, hout]

end TradingBot

/-- C1: the grid runner's execution-report handler ignores events for other
symbols or with a status other than FILLED/PARTIALLY_FILLED, leaving the
state unchanged; on a matching fill it removes the filled order from
`gridOrders` (no order with that exchange id remains), and: for a BUY fill
appends `{price, qty}` to `unmatchedBuys` and places a counter SELL at
`floor_tick(price + gridSpread)` leaving stats unchanged; for a SELL fill
places a counter BUY at `floor_tick(price − gridSpread)`, removes a
matching `unmatchedBuys` entry within half a tick of that buy price, and
credits `realizedPnl += (sellPrice − buyPrice)·qty`,
`completedRounds += 1`. -/
theorem C1_grid_fill_handling (symbol : String) (gridSpread tickSize orderSize stepSize : ℚ) :
    (∀ st evt out, (evt.s ≠ symbol ∨ (evt.X ≠ "FILLED" ∧ evt.X ≠ "PARTIALLY_FILLED")) →
      TradingBot.onExecutionReport symbol gridSpread tickSize orderSize stepSize st evt out
        = st) ∧
    (∀ st evt out fo rest,
      evt.s = symbol → (evt.X = "FILLED" ∨ evt.X = "PARTIALLY_FILLED") →
      TradingBot.spliceFirst (TradingBot.matchesId evt.i) st.gridOrders = some (fo, rest) →
      (∀ o ∈ rest, TradingBot.matchesId evt.i o = false) →
      TradingBot.assignedId out ≠ some evt.i →
      evt.S = "BUY" →
      TradingBot.onExecutionReport symbol gridSpread tickSize orderSize stepSize st evt out =
        { gridOrders := rest ++ [TradingBot.placeOrder orderSize stepSize
            ⟨TradingBot.roundToTickSize (fo.price + gridSpread) tickSize,
              "SELL", "pending", none, none⟩ out],
          unmatchedBuys := st.unmatchedBuys ++ [⟨fo.price, evt.z⟩],
          completedRounds := st.completedRounds,
          realizedPnl := st.realizedPnl } ∧
      ∀ o ∈ (TradingBot.onExecutionReport symbol gridSpread tickSize orderSize stepSize
          st evt out).gridOrders, o.orderId ≠ some evt.i) ∧
    (∀ st evt out fo rest,
      evt.s = symbol → (evt.X = "FILLED" ∨ evt.X = "PARTIALLY_FILLED") →
      TradingBot.spliceFirst (TradingBot.matchesId evt.i) st.gridOrders = some (fo, rest) →
      (∀ o ∈ rest, TradingBot.matchesId evt.i o = false) →
      TradingBot.assignedId out ≠ some evt.i →
      evt.S = "SELL" →
      TradingBot.onExecutionReport symbol gridSpread tickSize orderSize stepSize st evt out =
        { gridOrders := rest ++ [TradingBot.placeOrder orderSize stepSize
            ⟨TradingBot.roundToTickSize (fo.price - gridSpread) tickSize,
              "BUY", "pending", none, none⟩ out],
          unmatchedBuys := TradingBot.removeFirst
            (fun b => decide (|b.price -
              TradingBot.roundToTickSize (fo.price - gridSpread) tickSize| < tickSize / 2))
            st.unmatchedBuys,
          completedRounds := st.completedRounds + 1,
          realizedPnl := st.realizedPnl +
            (fo.price - TradingBot.roundToTickSize (fo.price - gridSpread) tickSize)
              * evt.z } ∧
      ∀ o ∈ (TradingBot.onExecutionReport symbol gridSpread tickSize orderSize stepSize
          st evt out).gridOrders, o.orderId ≠ some evt.i) := by
  have hmem : ∀ (st : TradingBot.GridState) (evt : TradingBot.ExecEvent) out fo rest
      (res : TradingBot.GridState),
      TradingBot.spliceFirst (TradingBot.matchesId evt.i) st.gridOrders = some (fo, rest) →
      (∀ o ∈ rest, TradingBot.matchesId evt.i o = false) →
      TradingBot.assignedId out ≠ some evt.i →
      (∃ counter, res.gridOrders =
        rest ++ [TradingBot.placeOrder orderSize stepSize counter out] ∧
        counter.orderId = none) →
      ∀ o ∈ res.gridOrders, o.orderId ≠ some evt.i := by
    intro st evt out fo rest res hsp hrest hid ⟨counter, hres, hco⟩ o ho
    have hizero : evt.i ≠ 0 := by
      have := TradingBot.spliceFirst_found _ _ _ _ hsp
      unfold TradingBot.matchesId at this
      cases hoid : fo.orderId with
      | none => rw [hoid] at this; simp at this
      | some oid =>
        rw [hoid] at this
        simp at this
        omega
    rw [hres] at ho
    rcases List.mem_append.mp ho with hmem1 | hmem2
    · intro hcontra
      have := hrest o hmem1
      unfold TradingBot.matchesId at this
      rw [hcontra] at this
      simp at this
      omega
    · have heq : o = TradingBot.placeOrder orderSize stepSize counter out := by
        simpa using hmem2
      rcases TradingBot.placeOrder_orderId orderSize stepSize counter out with h1 | h1
      · rw [heq, h1, hco]
        simp
      · rw [heq, h1]
        exact hid
  refine ⟨?_, ?_, ?_⟩
  · intro st evt out h
    unfold TradingBot.onExecutionReport
    rw [if_pos h]
  · intro st evt out fo rest hs hX hsp hrest hid hside
    have hcond : ¬(evt.s ≠ symbol ∨ (evt.X ≠ "FILLED" ∧ evt.X ≠ "PARTIALLY_FILLED")) := by
      push_neg
      exact ⟨hs, fun h1 => hX.resolve_left h1⟩
    have hres : TradingBot.onExecutionReport symbol gridSpread tickSize orderSize stepSize
        st evt out =
        { gridOrders := rest ++ [TradingBot.placeOrder orderSize stepSize
            ⟨TradingBot.roundToTickSize (fo.price + gridSpread) tickSize,
              "SELL", "pending", none, none⟩ out],
          unmatchedBuys := st.unmatchedBuys ++ [⟨fo.price, evt.z⟩],
          completedRounds := st.completedRounds,
          realizedPnl := st.realizedPnl } := by
      unfold TradingBot.onExecutionReport
      rw [if_neg hcond, hsp]
      simp [hside]
    refine ⟨hres, ?_⟩
    apply hmem st evt out fo rest _ hsp hrest hid
    exact ⟨_, by rw [hres], rfl⟩
  · intro st evt out fo rest hs hX hsp hrest hid hside
    have hcond : ¬(evt.s ≠ symbol ∨ (evt.X ≠ "FILLED" ∧ evt.X ≠ "PARTIALLY_FILLED")) := by
      push_neg
      exact ⟨hs, fun h1 => hX.resolve_left h1⟩
    have hres : TradingBot.onExecutionReport symbol gridSpread tickSize orderSize stepSize
        st evt out =
        { gridOrders := rest ++ [TradingBot.placeOrder orderSize stepSize
            ⟨TradingBot.roundToTickSize (fo.price - gridSpread) tickSize,
              "BUY", "pending", none, none⟩ out],
          unmatchedBuys := TradingBot.removeFirst
            (fun b => decide (|b.price -
              TradingBot.roundToTickSize (fo.price - gridSpread) tickSize| < tickSize / 2))
            st.unmatchedBuys,
          completedRounds := st.completedRounds + 1,
          realizedPnl := st.realizedPnl +
            (fo.price - TradingBot.roundToTickSize (fo.price - gridSpread) tickSize)
              * evt.z } := by
      unfold TradingBot.onExecutionReport
      rw [if_neg hcond, hsp]
      have : evt.S ≠ "BUY" := by rw [hside]; decide
      simp [hside, this]
    refine ⟨hres, ?_⟩
    apply hmem st evt out fo rest _ hsp hrest hid
    exact ⟨_, by rw [hres], rfl⟩

/-- Witness for C1 at a concrete BUY fill. -/
theorem C1_grid_fill_handling_witness :
    TradingBot.onExecutionReport "BTCUSDT" 1 (1 / 100) 10 (1 / 10000)
        ⟨[⟨100, "BUY", "open", some 7, some 1⟩], [], 0, 0⟩
        ⟨"BTCUSDT", "FILLED", "BUY", 7, 1⟩ (.ok 8) =
      { gridOrders := [] ++ [TradingBot.placeOrder 10 (1 / 10000)
          ⟨TradingBot.roundToTickSize ((100 : ℚ) + 1) (1 / 100),
            "SELL", "pending", none, none⟩ (.ok 8)],
        unmatchedBuys := [] ++ [⟨100, 1⟩],
        completedRounds := 0,
        realizedPnl := 0 } ∧
    ∀ o ∈ (TradingBot.onExecutionReport "BTCUSDT" 1 (1 / 100) 10 (1 / 10000)
        ⟨[⟨100, "BUY", "open", some 7, some 1⟩], [], 0, 0⟩
        ⟨"BTCUSDT", "FILLED", "BUY", 7, 1⟩ (.ok 8)).gridOrders,
      o.orderId ≠ some 7 :=
  (C1_grid_fill_handling "BTCUSDT" 1 (1 / 100) 10 (1 / 10000)).2.1
    ⟨[⟨100, "BUY", "open", some 7, some 1⟩], [], 0, 0⟩
    ⟨"BTCUSDT", "FILLED", "BUY", 7, 1⟩ (.ok 8)
    ⟨100, "BUY", "open", some 7, some 1⟩ []
    rfl (Or.inl rfl) (by decide) (by decide) (by decide) rfl

/-- C4: after each BUY fill the DCA-Buy runner appends the fill to
`filledBuys` idempotently on orderId, recomputes `{avg, totalQty,
totalValue}` over `filledBuys`, and ensures a single take-profit SELL at
`floor_tick(avg + takeProfit)` with quantity `floor_step(totalQty)`; an
existing TP is cancelled and replaced only when its price differs by more
than half a tick or its quantity by more than half a step, with error
-2011 on the cancel ignored.  Concretely, after fills `{qty=1, px=100}`
and `{qty=1, px=90}` with `takeProfit = 5` the single open SELL is
`qty = 2` at `100.00`, and after a further `{qty=1, px=80}` fill the TP is
replaced at `95.00`. -/
theorem C4_dca_take_profit :
    (∀ (symbol : String) (takeProfit tickSize stepSize : ℚ) st evt c p buy,
      evt.S = "BUY" →
      st.placedBuys.find? (fun b => b.orderId == evt.i) = some buy →
      st.filledBuys.any (fun fb => fb.orderId == buy.orderId) = true →
      TradingBot.dcaOnBuyFill symbol takeProfit tickSize stepSize st evt c p = st) ∧
    (∀ (symbol : String) (takeProfit tickSize stepSize : ℚ) st evt c p buy,
      evt.s = symbol → evt.X = "FILLED" → evt.S = "BUY" →
      st.placedBuys.find? (fun b => b.orderId == evt.i) = some buy →
      st.filledBuys.any (fun fb => fb.orderId == buy.orderId) = false →
      TradingBot.dcaOnBuyFill symbol takeProfit tickSize stepSize st evt c p =
        TradingBot.ensureTakeProfitSellUpToDate takeProfit tickSize stepSize
          { st with filledBuys := st.filledBuys ++ [buy] } c p) ∧
    (∀ fb : List TradingBot.DcaBuy, fb ≠ [] →
      TradingBot.buyStats fb = some
        ⟨(fb.foldl (fun a b => a + b.qty * b.price) 0) /
            (fb.foldl (fun a b => a + b.qty) 0),
          fb.foldl (fun a b => a + b.qty) 0,
          fb.foldl (fun a b => a + b.qty * b.price) 0⟩) ∧
    (∀ (takeProfit tickSize stepSize : ℚ) st c id stats,
      takeProfit ≠ 0 →
      TradingBot.buyStats st.filledBuys = some stats →
      0 < TradingBot.roundToStepSize stats.qty stepSize →
      st.sellTp = none →
      TradingBot.ensureTakeProfitSellUpToDate takeProfit tickSize stepSize st c
          (TradingBot.TpPlaceOutcome.ok id) =
        { st with sellTp := some ⟨id,
            TradingBot.roundToTickSize (stats.avg + takeProfit) tickSize,
            TradingBot.roundToStepSize stats.qty stepSize⟩ }) ∧
    (∀ (takeProfit tickSize stepSize : ℚ) st c p tp stats,
      takeProfit ≠ 0 →
      TradingBot.buyStats st.filledBuys = some stats →
      0 < TradingBot.roundToStepSize stats.qty stepSize →
      st.sellTp = some tp →
      ¬(|tp.price - TradingBot.roundToTickSize (stats.avg + takeProfit) tickSize| >
            tickSize / 2 ∨
          |tp.qty - TradingBot.roundToStepSize stats.qty stepSize| > stepSize / 2) →
      TradingBot.ensureTakeProfitSellUpToDate takeProfit tickSize stepSize st c p = st) ∧
    (∀ (takeProfit tickSize stepSize : ℚ) st c id tp stats,
      takeProfit ≠ 0 →
      TradingBot.buyStats st.filledBuys = some stats →
      0 < TradingBot.roundToStepSize stats.qty stepSize →
      st.sellTp = some tp →
      (|tp.price - TradingBot.roundToTickSize (stats.avg + takeProfit) tickSize| >
            tickSize / 2 ∨
          |tp.qty - TradingBot.roundToStepSize stats.qty stepSize| > stepSize / 2) →
      (c = TradingBot.CancelOutcome.ok ∨
        c = TradingBot.CancelOutcome.errCode (-2011)) →
      TradingBot.ensureTakeProfitSellUpToDate takeProfit tickSize stepSize st c
          (TradingBot.TpPlaceOutcome.ok id) =
        { st with sellTp := some ⟨id,
            TradingBot.roundToTickSize (stats.avg + takeProfit) tickSize,
            TradingBot.roundToStepSize stats.qty stepSize⟩ }) ∧
    (TradingBot.dcaOnBuyFill "S" 5 (1 / 100) (1 / 10000)
        (TradingBot.dcaOnBuyFill "S" 5 (1 / 100) (1 / 10000)
          ⟨[⟨1, 100, 1⟩, ⟨2, 90, 1⟩, ⟨3, 80, 1⟩], [], none⟩
          ⟨"S", "FILLED", "BUY", 1, 1⟩ .ok (.ok 11))
        ⟨"S", "FILLED", "BUY", 2, 1⟩ .ok (.ok 12) =
      ⟨[⟨1, 100, 1⟩, ⟨2, 90, 1⟩, ⟨3, 80, 1⟩], [⟨1, 100, 1⟩, ⟨2, 90, 1⟩],
        some ⟨12, 100, 2⟩⟩ ∧
      TradingBot.dcaOnBuyFill "S" 5 (1 / 100) (1 / 10000)
        ⟨[⟨1, 100, 1⟩, ⟨2, 90, 1⟩, ⟨3, 80, 1⟩], [⟨1, 100, 1⟩, ⟨2, 90, 1⟩],
          some ⟨12, 100, 2⟩⟩
        ⟨"S", "FILLED", "BUY", 3, 1⟩ .ok (.ok 13) =
      ⟨[⟨1, 100, 1⟩, ⟨2, 90, 1⟩, ⟨3, 80, 1⟩],
        [⟨1, 100, 1⟩, ⟨2, 90, 1⟩, ⟨3, 80, 1⟩], some ⟨13, 95, 3⟩⟩) := by
  refine ⟨?_, ?_, ?_, ?_, ?_, ?_, ?_⟩
  · intro symbol takeProfit tickSize stepSize st evt c p buy hS hfind hal
    exact TradingBot.dcaOnBuyFill_already symbol takeProfit tickSize stepSize
      st evt c p buy hS hfind hal
  · intro symbol takeProfit tickSize stepSize st evt c p buy hs hX hS hfind hnot
    exact TradingBot.dcaOnBuyFill_found symbol takeProfit tickSize stepSize
      st evt c p buy hs hX hS hfind hnot
  · intro fb hfb
    unfold TradingBot.buyStats
    rw [if_neg (by simpa using hfb)]
  · intro takeProfit tickSize stepSize st c id stats htp hstats hq hnone
    exact TradingBot.ensure_place takeProfit tickSize stepSize st c id stats
      htp hstats hq hnone
  · intro takeProfit tickSize stepSize st c p tp stats htp hstats hq hsome hin
    exact TradingBot.ensure_keep takeProfit tickSize stepSize st c p tp stats
      htp hstats hq hsome hin
  · intro takeProfit tickSize stepSize st c id tp stats htp hstats hq hsome hout hc
    exact TradingBot.ensure_replace takeProfit tickSize stepSize st c id tp stats
      htp hstats hq hsome hout hc
  · have htick : ∀ v : ℚ, TradingBot.roundToTickSize v (1 / 100) =
        (⌊v * 100⌋ : ℚ) / 100 := TradingBot.roundToTick_hundredth
    have hstep : ∀ v : ℚ, TradingBot.roundToStepSize v (1 / 10000) =
        (⌊v * 10000⌋ : ℚ) / 10000 := TradingBot.roundToStep_tenthousandth
    have h1 : TradingBot.dcaOnBuyFill "S" 5 (1 / 100) (1 / 10000)
        ⟨[⟨1, 100, 1⟩, ⟨2, 90, 1⟩, ⟨3, 80, 1⟩], [], none⟩
        ⟨"S", "FILLED", "BUY", 1, 1⟩ .ok (.ok 11) =
        ⟨[⟨1, 100, 1⟩, ⟨2, 90, 1⟩, ⟨3, 80, 1⟩], [⟨1, 100, 1⟩],
          some ⟨11, 105, 1⟩⟩ := by
      rw [TradingBot.dcaOnBuyFill_found "S" 5 (1 / 100) (1 / 10000) _ _ _ _
        ⟨1, 100, 1⟩ rfl rfl rfl (by rfl) (by rfl)]
      rw [TradingBot.ensure_place 5 (1 / 100) (1 / 10000) _ _ 11 ⟨100, 1, 100⟩
        (by norm_num) (by simp [TradingBot.buyStats]) (by rw [hstep]; norm_num) rfl]
      have e1 : TradingBot.roundToTickSize ((100 : ℚ) + 5) (1 / 100) = 105 := by
        rw [htick]; norm_num
      have e2 : TradingBot.roundToStepSize (1 : ℚ) (1 / 10000) = 1 := by
        rw [hstep]; norm_num
      rw [e1, e2]
      rfl
    have h2 : TradingBot.dcaOnBuyFill "S" 5 (1 / 100) (1 / 10000)
        ⟨[⟨1, 100, 1⟩, ⟨2, 90, 1⟩, ⟨3, 80, 1⟩], [⟨1, 100, 1⟩], some ⟨11, 105, 1⟩⟩
        ⟨"S", "FILLED", "BUY", 2, 1⟩ .ok (.ok 12) =
        ⟨[⟨1, 100, 1⟩, ⟨2, 90, 1⟩, ⟨3, 80, 1⟩], [⟨1, 100, 1⟩, ⟨2, 90, 1⟩],
          some ⟨12, 100, 2⟩⟩ := by
      rw [TradingBot.dcaOnBuyFill_found "S" 5 (1 / 100) (1 / 10000) _ _ _ _
        ⟨2, 90, 1⟩ rfl rfl rfl (by rfl) (by rfl)]
      have hbs : TradingBot.buyStats [⟨1, 100, 1⟩, ⟨2, 90, 1⟩] =
          some ⟨95, 2, 190⟩ := by
        simp [TradingBot.buyStats]
        norm_num
      have e1 : TradingBot.roundToTickSize ((95 : ℚ) + 5) (1 / 100) = 100 := by
        rw [htick]; norm_num
      have e2 : TradingBot.roundToStepSize (2 : ℚ) (1 / 10000) = 2 := by
        rw [hstep]; norm_num
      rw [TradingBot.ensure_replace 5 (1 / 100) (1 / 10000) _ _ 12 ⟨11, 105, 1⟩
        ⟨95, 2, 190⟩ (by norm_num) hbs (by rw [hstep]; norm_num) rfl
        (by rw [e1]; left; norm_num) (Or.inl rfl)]
      rw [e1, e2]
      rfl
    have h3 : TradingBot.dcaOnBuyFill "S" 5 (1 / 100) (1 / 10000)
        ⟨[⟨1, 100, 1⟩, ⟨2, 90, 1⟩, ⟨3, 80, 1⟩], [⟨1, 100, 1⟩, ⟨2, 90, 1⟩],
          some ⟨12, 100, 2⟩⟩
        ⟨"S", "FILLED", "BUY", 3, 1⟩ .ok (.ok 13) =
        ⟨[⟨1, 100, 1⟩, ⟨2, 90, 1⟩, ⟨3, 80, 1⟩],
          [⟨1, 100, 1⟩, ⟨2, 90, 1⟩, ⟨3, 80, 1⟩], some ⟨13, 95, 3⟩⟩ := by
      rw [TradingBot.dcaOnBuyFill_found "S" 5 (1 / 100) (1 / 10000) _ _ _ _
        ⟨3, 80, 1⟩ rfl rfl rfl (by rfl) (by rfl)]
      have hbs : TradingBot.buyStats [⟨1, 100, 1⟩, ⟨2, 90, 1⟩, ⟨3, 80, 1⟩] =
          some ⟨90, 3, 270⟩ := by
        simp [TradingBot.buyStats]
        norm_num
      have e1 : TradingBot.roundToTickSize ((90 : ℚ) + 5) (1 / 100) = 95 := by
        rw [htick]; norm_num
      have e2 : TradingBot.roundToStepSize (3 : ℚ) (1 / 10000) = 3 := by
        rw [hstep]; norm_num
      rw [TradingBot.ensure_replace 5 (1 / 100) (1 / 10000) _ _ 13 ⟨12, 100, 2⟩
        ⟨90, 3, 270⟩ (by norm_num) hbs (by rw [hstep]; norm_num) rfl
        (by rw [e1]; left; norm_num) (Or.inl rfl)]
      rw [e1, e2]
      rfl
    rw [h1, h2]
    exact ⟨rfl, h3⟩

/-- Witness for C4 at a concrete already-filled BUY event (idempotency). -/
theorem C4_dca_take_profit_witness :
    TradingBot.dcaOnBuyFill "S" 5 (1 / 100) (1 / 10000)
        ⟨[⟨1, 100, 1⟩], [⟨1, 100, 1⟩], none⟩
        ⟨"S", "FILLED", "BUY", 1, 1⟩ .ok (.ok 11) =
      ⟨[⟨1, 100, 1⟩], [⟨1, 100, 1⟩], none⟩ :=
  C4_dca_take_profit.1 "S" 5 (1 / 100) (1 / 10000)
    ⟨[⟨1, 100, 1⟩], [⟨1, 100, 1⟩], none⟩
    ⟨"S", "FILLED", "BUY", 1, 1⟩ .ok (.ok 11) ⟨1, 100, 1⟩
    rfl (by rfl) (by rfl)

namespace TradingBot

/-- `null` is falsy. -/
lemma truthy_none : truthy none = false := rfl

/-- A truthy optional number is present. -/
lemma truthy_ne_none (o : Option ℤ) (h : truthy o = true) : o ≠ none := by
  cases o with
  | none => simp [truthy] at h
  | some t => simp

end TradingBot

/-- C5: `bot.start()` is a no-op when already running; otherwise it marks
the bot running, sets `timeStarted = now` only when absent, clears
`timeStopped` and points `runStartTime` at `timeStarted`.  Consequently a
snapshot persisted running with `timeStarted = T0` resumes after a restart
with `timeStarted` still `T0` and `currentDurationMs = now − T0`. -/
theorem C5_start_and_resume :
    (∀ (now : ℤ) (b : TradingBot.Bot), b.status = "running" →
      TradingBot.botStart now b = b) ∧
    (∀ (now : ℤ) (b : TradingBot.Bot), b.status ≠ "running" →
      (TradingBot.botStart now b).status = "running" ∧
      (TradingBot.botStart now b).timeStarted =
        (if TradingBot.truthy b.timeStarted then b.timeStarted else some now) ∧
      (TradingBot.botStart now b).timeStopped = none ∧
      (TradingBot.botStart now b).runStartTime =
        (TradingBot.botStart now b).timeStarted) ∧
    (∀ (s : TradingBot.PersistedBot) (t0 loadNow now : ℤ),
      s.status = "running" → s.timeStarted = some t0 → t0 ≠ 0 →
      (TradingBot.loadAndResume loadNow s).timeStarted = some t0 ∧
      TradingBot.currentDurationMs now (TradingBot.loadAndResume loadNow s) =
        now - t0) := by
  refine ⟨?_, ?_, ?_⟩
  · intro now b h
    unfold TradingBot.botStart
    rw [if_pos h]
  · intro now b h
    unfold TradingBot.botStart
    rw [if_neg h]
    exact ⟨rfl, rfl, rfl, rfl⟩
  · intro s t0 loadNow now hs hts ht0
    have htr : TradingBot.truthy (some t0) = true := by simp [TradingBot.truthy, ht0]
    have hload : TradingBot.loadAndResume loadNow s =
        TradingBot.resumeBot loadNow (TradingBot.buildBotInstance loadNow s) := by
      unfold TradingBot.loadAndResume
      rw [hs]
      simp
    have hb1 : (TradingBot.buildBotInstance loadNow s).timeStarted = some t0 := by
      unfold TradingBot.buildBotInstance
      split <;> (try split) <;> (try split) <;> (try split) <;> simp_all [htr, TradingBot.truthy_none]
    have hres :
        (TradingBot.resumeBot loadNow
            (TradingBot.buildBotInstance loadNow s)).status = "running" ∧
        (TradingBot.resumeBot loadNow
            (TradingBot.buildBotInstance loadNow s)).timeStarted = some t0 ∧
        (TradingBot.resumeBot loadNow
            (TradingBot.buildBotInstance loadNow s)).runStartTime = some t0 := by
      unfold TradingBot.resumeBot
      rw [hb1]
      simp [htr]
    rw [hload]
    refine ⟨hres.2.1, ?_⟩
    unfold TradingBot.currentDurationMs
    rw [if_pos ⟨hres.1, by rw [hres.2.2]; exact htr⟩, hres.2.2]
    rfl

/-- Witness for C5: a snapshot persisted running at T0 = 100, reloaded at
time 200, reports duration now − T0 at now = 3600100. -/
theorem C5_start_and_resume_witness :
    (TradingBot.loadAndResume 200
        ⟨"running", some 1, some 100, none, ⟨7, 0, 0⟩⟩).timeStarted = some 100 ∧
    TradingBot.currentDurationMs 3600100
        (TradingBot.loadAndResume 200
          ⟨"running", some 1, some 100, none, ⟨7, 0, 0⟩⟩) = 3600100 - 100 :=
  C5_start_and_resume.2.2 ⟨"running", some 1, some 100, none, ⟨7, 0, 0⟩⟩
    100 200 3600100 rfl rfl (by decide)

/-- C6: in every bot state reachable through `createBot`, `bot.start` and
`bot.stop`, the status is `running` exactly when `timeStarted` is present
and `timeStopped` is absent. -/
theorem C6_lifecycle_invariant (b : TradingBot.Bot)
    (h : TradingBot.ReachableBot b) :
    b.status = "running" ↔ b.timeStarted ≠ none ∧ b.timeStopped = none := by
  induction h with
  | create timeNow =>
    have h1 : (TradingBot.createBot timeNow).status = "stopped" := rfl
    have h2 : (TradingBot.createBot timeNow).timeStarted = none := rfl
    have h3 : (TradingBot.createBot timeNow).timeStopped = none := rfl
    rw [h1, h2, h3]
    simp
  | start now hb ih =>
    rename_i b'
    unfold TradingBot.botStart
    by_cases hr : b'.status = "running"
    · rw [if_pos hr]
      exact ih
    · rw [if_neg hr]
      constructor
      · intro _
        refine ⟨?_, rfl⟩
        show (if TradingBot.truthy b'.timeStarted then b'.timeStarted
          else some now) ≠ none
        by_cases ht : TradingBot.truthy b'.timeStarted
        · rw [if_pos ht]
          exact TradingBot.truthy_ne_none _ ht
        · rw [if_neg ht]
          simp
      · intro _
        rfl
  | stop now hb ih =>
    rename_i b'
    unfold TradingBot.botStop
    by_cases hst : b'.status = "stopped"
    · rw [if_pos hst]
      exact ih
    · rw [if_neg hst]
      constructor
      · intro hc
        simp at hc
      · intro hc
        have := hc.2
        simp at this

/-- Witness for C6 at the freshly created bot. -/
theorem C6_lifecycle_invariant_witness :
    (TradingBot.createBot 5).status = "running" ↔
      (TradingBot.createBot 5).timeStarted ≠ none ∧
      (TradingBot.createBot 5).timeStopped = none :=
  C6_lifecycle_invariant (TradingBot.createBot 5) (TradingBot.ReachableBot.create 5)

namespace TradingBot

/-- Reading back the bot's file just written returns what was written. -/
lemma getStore_setStore (store : Store) (k : String) (v : Json) :
    getStore (setStore store k v) k = some v := by
  unfold getStore setStore
  rw [List.find?_cons_of_pos]
  · rfl
  · simp

/-- Unwrapping the `{updatedAt, state}` envelope recovers the state. -/
lemma jsonGet_state (now : ℚ) (s : Json) :
    jsonGet "state" (.obj [("updatedAt", .num now), ("state", s)]) = s := rfl

/-- `retryAux` makes at most `fuel + 1` invocations of `fn`. -/
lemma retryAux_count {E A : Type} (fn : ℕ → Except E A) :
    ∀ (fuel attempt : ℕ), (retryAux fn attempt fuel).2 ≤ fuel + 1 := by
  intro fuel
  induction fuel with
  | zero =>
    intro attempt
    simp [retryAux]
  | succ n ih =>
    intro attempt
    unfold retryAux
    cases hf : fn attempt with
    | ok a => simp [hf]
    | error e =>
      simp only [hf]
      have := ih (attempt + 1)
      omega
  
/-- When every attempt in range fails, `retryAux` propagates the final
attempt's result after exactly `fuel + 1` invocations. -/
lemma retryAux_all_fail {E A : Type} (fn : ℕ → Except E A) :
    ∀ (fuel attempt : ℕ),
      (∀ i, attempt ≤ i → i ≤ attempt + fuel → ∃ e, fn i = Except.error e) →
      retryAux fn attempt fuel = (fn (attempt + fuel), fuel + 1) := by
  intro fuel
  induction fuel with
  | zero =>
    intro attempt h
    simp [retryAux]
  | succ n ih =>
    intro attempt h
    obtain ⟨e, he⟩ := h attempt le_rfl (by omega)
    unfold retryAux
    rw [he]
    have hrec := ih (attempt + 1) (fun i h1 h2 => h i (by omega) (by omega))
    simp only [hrec]
    have harith : attempt + 1 + n = attempt + (n + 1) := by omega
    rw [harith]

end TradingBot

/-- C7 counterexample: a falsy state value does not round-trip —
`loadBotState` after `saveBotState(id, false)` returns `null`, not
`false`, because of the `parsed.state || null` fallback. -/
theorem C7_roundtrip_counterexample :
    TradingBot.loadBotState
        (TradingBot.saveBotState 0 [] "bot-1" (TradingBot.Json.bool false))
        "bot-1" = TradingBot.Json.null ∧
      TradingBot.Json.null ≠ TradingBot.Json.bool false :=
  ⟨rfl, fun h => TradingBot.Json.noConfusion h⟩

/-- C7 (amended): every truthy state value — in particular every object
snapshot the manager persists — round-trips losslessly through
`saveBotState`/`loadBotState`, times and stats included. -/
theorem C7_roundtrip_amended (store : TradingBot.Store) (botId : String)
    (now : ℚ) (s : TradingBot.Json) (hs : TradingBot.jsTruthy s = true) :
    TradingBot.loadBotState (TradingBot.saveBotState now store botId s) botId
      = s := by
  unfold TradingBot.saveBotState TradingBot.loadBotState
  rw [TradingBot.getStore_setStore]
  simp [TradingBot.jsonGet_state, TradingBot.orNull, hs]

/-- Witness for C7 (amended) on an object snapshot. -/
theorem C7_roundtrip_amended_witness :
    TradingBot.loadBotState
        (TradingBot.saveBotState 3 [] "b1"
          (TradingBot.Json.obj [("name", TradingBot.Json.str "alpha")])) "b1" =
      TradingBot.Json.obj [("name", TradingBot.Json.str "alpha")] :=
  C7_roundtrip_amended [] "b1" 3
    (TradingBot.Json.obj [("name", TradingBot.Json.str "alpha")]) rfl

/-- C8: the retry helper invokes `fn` at most `retries + 1` times; when
every invocation fails it returns the final attempt's error; signed
requests use `retries = 3`, hence at most 4 attempts. -/
theorem C8_retry_attempt_bound :
    (∀ (E A : Type) (fn : ℕ → Except E A) (retries : ℕ),
      (TradingBot.retry fn retries).2 ≤ retries + 1) ∧
    (∀ (E A : Type) (fn : ℕ → Except E A) (retries : ℕ),
      (∀ i, i ≤ retries → ∃ e, fn i = Except.error e) →
      TradingBot.retry fn retries = (fn retries, retries + 1)) ∧
    (∀ (E A : Type) (fn : ℕ → Except E A),
      (TradingBot.retry fn TradingBot.signedRequestRetries).2 ≤
        TradingBot.signedRequestRetries + 1) := by
  refine ⟨?_, ?_, ?_⟩
  · intro E A fn retries
    exact TradingBot.retryAux_count fn retries 0
  · intro E A fn retries h
    have := TradingBot.retryAux_all_fail fn retries 0
      (fun i h1 h2 => h i (by omega))
    simpa [TradingBot.retry] using this
  · intro E A fn
    exact TradingBot.retryAux_count fn TradingBot.signedRequestRetries 0

/-- Witness for C8: a function failing on every attempt with `retries = 2`
is invoked exactly 3 times and the last error is propagated. -/
theorem C8_retry_attempt_bound_witness :
    TradingBot.retry
        (fun _ : ℕ => (Except.error "boom" : Except String Unit)) 2 =
      (Except.error "boom", 3) :=
  C8_retry_attempt_bound.2.1 String Unit (fun _ => Except.error "boom") 2
    (fun _ _ => ⟨"boom", rfl⟩)

/-- C9 (code bug): `closeAll` sets the shutdown flag, clears the keepalive
timer, listen key and market sockets, and the flag does suppress the user
stream's reconnection — but a market socket's `close` handler fired by the
very `terminate()` in `closeAll` re-subscribes the stream, since
`subscribeMarketSymbol` never checks `closed` and the cleared `marketWss`
no longer guards it: a new stream connection is opened after shutdown. -/
theorem C9_closeAll_market_reconnect_bug (st : TradingBot.WSState)
    (key stream : String) :
    (TradingBot.closeAll st).closed = true ∧
    (TradingBot.closeAll st).keepAliveTimer = false ∧
    (TradingBot.closeAll st).userListenKey = none ∧
    (TradingBot.closeAll st).marketStreams = [] ∧
    (TradingBot.recreateUserStream (TradingBot.closeAll st) key).2 = false ∧
    (TradingBot.marketCloseHandler (TradingBot.closeAll st) stream).2 = true := by
  refine ⟨rfl, rfl, rfl, rfl, rfl, ?_⟩
  simp [TradingBot.marketCloseHandler, TradingBot.subscribeMarketSymbol,
    TradingBot.closeAll]

/-- C3 counterexample: the object produced by `getOpenOrders` for a
concrete exchange order is not in the runner-local Order record shape —
none of the fields `orderId`, `clientOrderId`, `side`, `qty` exist
(the mapping emits snake_case names and `Date` objects). -/
theorem C3_runner_shape_counterexample :
    TradingBot.runnerOrderShape
      (TradingBot.mapOrderForUI
        ⟨1, "c1", "BUY", "100.00", "1.0", "0.0", "BTCUSDT", "NEW", "GTC",
          1700000000000, some 1700000000001⟩) = false := rfl

/-- C3 (amended): `getOpenOrders` normalises each exchange order into the
snake_case UI object with exactly the fields `order_id, client_order_id,
type, price, quantity, executed_quantity, symbol, status, time_in_force,
created_at, updated_at`, where the timestamps are `Date` objects built
from `time`/`updateTime` (not epoch-millisecond numbers), and this object
is never in the runner-local `{orderId, clientOrderId, side, price, qty,
status}` shape. -/
theorem C3_open_orders_shape (rs : List TradingBot.RawOrder)
    (r : TradingBot.RawOrder) :
    TradingBot.getOpenOrders (Except.ok rs) = rs.map TradingBot.mapOrderForUI ∧
    (TradingBot.mapOrderForUI r).map Prod.fst =
      ["order_id", "client_order_id", "type", "price", "quantity",
        "executed_quantity", "symbol", "status", "time_in_force",
        "created_at", "updated_at"] ∧
    TradingBot.runnerOrderShape (TradingBot.mapOrderForUI r) = false ∧
    (TradingBot.mapOrderForUI r).find? (fun f => f.1 == "created_at") =
      some ("created_at", TradingBot.JsVal.date r.time) :=
  ⟨rfl, rfl, rfl, rfl⟩

/-- C10: `getOpenOrders` and `getAllOrders` swallow every failure of the
underlying signed request into the empty list, indistinguishable from an
account with no orders. -/
theorem C10_gateway_swallow_errors :
    (∀ e : String, TradingBot.getOpenOrders (Except.error e) = []) ∧
    (∀ e : String, TradingBot.getAllOrders (Except.error e) = []) ∧
    (∀ e : String, TradingBot.getOpenOrders (Except.error e) =
      TradingBot.getOpenOrders (Except.ok [])) ∧
    (∀ e : String, TradingBot.getAllOrders (Except.error e) =
      TradingBot.getAllOrders (Except.ok [])) :=
  ⟨fun _ => rfl, fun _ => rfl, fun _ => rfl, fun _ => rfl⟩
